import Mathlib

/-!
Shallow embedding of src/main.py (github-releases-slack).

The program polls GitHub for the latest release of each configured repository,
converts the release notes from GitHub markdown to Slack markup, posts a
notification to a Slack webhook, and persists the last-seen release id per
repository in a GitHub Gist.

External HTTP calls are modelled as oracle parameters:
  - the markdown-render call (requests.post to the markdown endpoint composed
    with the html2text handle step, lines 104-124) is a parameter
    render : List Char -> Option (List Char); none models any exception
    raised inside the try block before the post-processing;
  - per-repository fetches (the two GETs of lines 170-179, including
    raise_for_status) are an Option FetchedRelease;
  - the Slack webhook POST outcome (lines 213-214) is a Bool;
  - the gist fetch in load_last_releases and the json.loads parse are
    Option-valued parameters.

Strings are modelled as List Char (Python str as a sequence of code points);
Python dicts with string keys as ordered association lists with in-place
update, matching dict item-assignment semantics. The regex substitutions of
the converter are embedded character-level, following Python re semantics
(leftmost match, greedy with backtracking) for the concrete patterns used by
the source; the whitespace class is modelled over its ASCII range.
-/

-- Constants (src/main.py lines 10-33)

def REPOS : List String := ["nestjs/nest", "slackapi/slack-github-action", "microsoft/typescript"]

def GIST_FILENAME : String := "github_releases_data.json"

abbrev ReleaseState := List (String × String)

-- Python dict primitives on string-keyed dicts: lookup (d.get / d[k] with
-- membership), and item assignment d[k] = v (update in place, append if new).

def lookup' : List (String × String) → String → Option String
  | [], _ => none
  | (k, v) :: rest, key => if k = key then some v else lookup' rest key

def insert' : List (String × String) → String → String → List (String × String)
  | [], key, val => [(key, val)]
  | (k, v) :: rest, key, val =>
    if k = key then (key, val) :: rest else (k, v) :: insert' rest key val

-- Markup converter building blocks (src/main.py lines 94-161)

def placeholder : List Char := "No release notes provided.".toList

def truncMarker : List Char := "... (truncated)".toList

/-- Split a list at the first occurrence of a character: returns the part
strictly before it and the part strictly after it, or none if absent. -/
def splitAtChar (c : Char) : List Char → Option (List Char × List Char)
  | [] => none
  | x :: xs =>
    if x = c then some ([], xs)
    else
      match splitAtChar c xs with
      | some (pre, post) => some (x :: pre, post)
      | none => none

/-- Attempt to match the tail of a link occurrence after an opening bracket,
per the pattern of lines 128 and 147: a nonempty run of non-close-bracket
characters, a close bracket, an open paren, a nonempty run of non-close-paren
characters, a close paren. Returns (label, url, rest). -/
def tryLink (s : List Char) : Option (List Char × List Char × List Char) :=
  match splitAtChar ']' s with
  | none => none
  | some (label, rest1) =>
    if label = [] then none
    else
      match rest1 with
      | '(' :: rest2 =>
        match splitAtChar ')' rest2 with
        | none => none
        | some (url, rest3) => if url = [] then none else some (label, url, rest3)
      | _ => none

/-- The link rewrite of lines 128 and 147 (the same regex substitution appears
at both call sites): leftmost non-overlapping matches, each rewritten to
Slack link syntax; on a failed match attempt the scan advances one character.
Fuel-based structural recursion; fuel at least the list length is exact. -/
def linkSubAux : Nat → List Char → List Char
  | 0, s => s
  | _ + 1, [] => []
  | fuel + 1, c :: rest =>
    if c = '[' then
      match tryLink rest with
      | some (label, url, rest2) =>
        '<' :: (url ++ '|' :: (label ++ '>' :: linkSubAux fuel rest2))
      | none => c :: linkSubAux fuel rest
    else c :: linkSubAux fuel rest

def linkSub (s : List Char) : List Char := linkSubAux s.length s

/-- Python whitespace class restricted to its ASCII range. -/
def isWs (c : Char) : Bool :=
  c == ' ' || c == '\t' || c == '\n' || c == '\r' || c == '\x0b' || c == '\x0c'

/-- Largest index of a character different from newline, if any. -/
def lastNonNl : List Char → Option Nat
  | [] => none
  | c :: rest =>
    match lastNonNl rest with
    | some i => some (i + 1)
    | none => if c = '\n' then none else some 0

/-- Attempt to match the header pattern of lines 131-133 and 150 at a
line-start position: one to six hash marks, then at least one whitespace
character (greedy, backtracking), then a nonempty captured run of
non-newline characters, then end of line. Returns (captured group,
rest of the string starting at the end-of-line position). -/
def tryHeader (s : List Char) : Option (List Char × List Char) :=
  let hashes := s.takeWhile (fun c => c == '#')
  let s1 := s.dropWhile (fun c => c == '#')
  if hashes.length = 0 || 6 < hashes.length then none
  else
    let ws := s1.takeWhile isWs
    let s2 := s1.dropWhile isWs
    if ws = [] then none
    else
      match s2 with
      | _ :: _ =>
        some (s2.takeWhile (fun c => c != '\n'), s2.dropWhile (fun c => c != '\n'))
      | [] =>
        match lastNonNl (ws.drop 1) with
        | none => none
        | some i =>
          let tail := ws.drop (i + 1)
          some (tail.takeWhile (fun c => c != '\n'), tail.dropWhile (fun c => c != '\n'))

/-- The multiline header rewrite of lines 131-133 and 150: at each line start,
a matched header is replaced by the captured group wrapped in asterisks; a
line with no match is copied verbatim. A match always ends at a newline or at
the end of the string. -/
def headerSubAux : Nat → List Char → List Char
  | 0, s => s
  | fuel + 1, s =>
    match tryHeader s with
    | some (g, r) =>
      '*' :: (g ++ '*' ::
        (match r with
         | '\n' :: r2 => '\n' :: headerSubAux fuel r2
         | _ => r))
    | none =>
      match splitAtChar '\n' s with
      | some (line, r2) => line ++ '\n' :: headerSubAux fuel r2
      | none => s

def headerSub (s : List Char) : List Char := headerSubAux s.length s

def btick : Char := Char.ofNat 96

def isLowerAZ (c : Char) : Bool := 97 ≤ c.toNat && c.toNat ≤ 122

/-- The code-fence rewrite of line 153: three backticks followed by a run of
lowercase letters and a newline lose the language tag. -/
def fenceSubAux : Nat → List Char → List Char
  | 0, s => s
  | _ + 1, [] => []
  | fuel + 1, c :: rest =>
    if c = btick then
      match rest with
      | c2 :: c3 :: r =>
        if c2 = btick ∧ c3 = btick then
          match r.dropWhile isLowerAZ with
          | nl :: r2 =>
            if nl = '\n' then btick :: btick :: btick :: '\n' :: fenceSubAux fuel r2
            else c :: fenceSubAux fuel rest
          | [] => c :: fenceSubAux fuel rest
        else c :: fenceSubAux fuel rest
      | _ => c :: fenceSubAux fuel rest
    else c :: fenceSubAux fuel rest

def fenceSub (s : List Char) : List Char := fenceSubAux s.length s

def startsWith' : List Char → List Char → Bool
  | [], _ => true
  | _ :: _, [] => false
  | p :: ps, c :: cs => p == c && startsWith' ps cs

/-- Python str.replace: replace every leftmost non-overlapping occurrence of
a (nonempty) pattern. -/
def replaceAllAux (pat repl : List Char) : Nat → List Char → List Char
  | 0, s => s
  | _ + 1, [] => []
  | fuel + 1, c :: rest =>
    if startsWith' pat (c :: rest) then
      repl ++ replaceAllAux pat repl fuel ((c :: rest).drop pat.length)
    else c :: replaceAllAux pat repl fuel rest

def replaceAll (pat repl s : List Char) : List Char := replaceAllAux pat repl s.length s

/-- The three sequential entity replacements of line 156. -/
def entitySub (s : List Char) : List Char :=
  replaceAll "&amp;".toList "&".toList
    (replaceAll "&gt;".toList ">".toList
      (replaceAll "&lt;".toList "<".toList s))

/-- Attempt to match the bullet pattern of line 159 at a line-start position:
a possibly empty greedy whitespace run, a dash or asterisk, then a nonempty
greedy whitespace run. Returns (matched text, rest). -/
def tryBullet (s : List Char) : Option (List Char × List Char) :=
  let ws := s.takeWhile isWs
  let s1 := s.dropWhile isWs
  match s1 with
  | b :: s2 =>
    if b = '-' ∨ b = '*' then
      let ws2 := s2.takeWhile isWs
      let s3 := s2.dropWhile isWs
      if ws2 = [] then none else some (ws ++ b :: ws2, s3)
    else none
  | [] => none

def endsWithNl (l : List Char) : Bool :=
  match l.getLast? with
  | some c => c == '\n'
  | none => false

/-- The multiline bullet rewrite of line 159: at each line start a matched
bullet prefix is preceded by an extra newline; other characters are copied.
The Bool tracks whether the current position is a line start. -/
def bulletSubAux : Nat → Bool → List Char → List Char
  | 0, _, s => s
  | _ + 1, _, [] => []
  | fuel + 1, atStart, c :: rest =>
    if atStart then
      match tryBullet (c :: rest) with
      | some (m, r) => '\n' :: (m ++ bulletSubAux fuel (endsWithNl m) r)
      | none => c :: bulletSubAux fuel (c == '\n') rest
    else c :: bulletSubAux fuel (c == '\n') rest

def bulletSub (s : List Char) : List Char := bulletSubAux s.length true s

/-- Input truncation of lines 100-101 (before the remote render call). -/
def trunc4000 (t : List Char) : List Char :=
  if 4000 < t.length then t.take 4000 ++ truncMarker else t

/-- Output truncation of lines 136-137 (primary path only). -/
def trunc2900 (t : List Char) : List Char :=
  if 2900 < t.length then t.take 2900 ++ truncMarker else t

/-- The fallback conversion of lines 145-161: link rewrite, header rewrite,
code-fence rewrite, entity unescaping, bullet spacing, in source order. -/
def fallbackConvert (text : List Char) : List Char :=
  bulletSub (entitySub (fenceSub (headerSub (linkSub text))))

/-- github_to_slack_markdown (lines 94-161), instrumented: the second
component records the text submitted to the remote render call, none when no
remote call is made. The render oracle models the POST to the markdown
endpoint together with the html2text handle step; none models any exception
inside the try block, which triggers the fallback path. -/
def github_to_slack_markdownI (render : List Char → Option (List Char)) :
    Option (List Char) → List Char × Option (List Char)
  | none => (placeholder, none)
  | some text0 =>
    if text0 = [] then (placeholder, none)
    else
      let text := trunc4000 text0
      match render text with
      | some handled => (trunc2900 (headerSub (linkSub handled)), some text)
      | none => (fallbackConvert text, some text)

def github_to_slack_markdown (render : List Char → Option (List Char))
    (text : Option (List Char)) : List Char :=
  (github_to_slack_markdownI render text).1

-- Poll loop (src/main.py lines 164-229)

/-- The fields of the fetched latest release that the loop's control flow
depends on: the string form of the release id (line 184 applies str to the id)
and the release body (possibly null). -/
structure FetchedRelease where
  idStr : String
  body : Option (List Char)

/-- Per-repository external-world outcome: the two GETs of lines 170-179
(none models a raised requests exception in either), the Slack webhook POST
outcome of lines 213-214, and the markdown-render oracle used when converting
the body. -/
structure RepoEnv where
  fetch : Option FetchedRelease
  webhookOk : Bool
  render : List Char → Option (List Char)

inductive Event where
  | notified (repo : String) (notes : List Char)
  | noNew (repo : String)
  | fetchFailed (repo : String)
  | webhookFailed (repo : String)
  | saved (state : ReleaseState)
deriving DecidableEq

/-- The newness test of lines 182-185: repo not in last_releases or the
string form of the fetched id differs from the stored one. -/
def isNewRelease (st : ReleaseState) (repo idStr : String) : Bool :=
  match lookup' st repo with
  | none => true
  | some v => v != idStr

/-- One iteration of the loop body (lines 168-226) for one repository:
any requests exception in the iteration is caught at line 225, leaving the
state untouched; on a new release the converted notes are posted to the
webhook; only on a successful POST is the state entry updated (line 220). -/
def checkRepo (env : RepoEnv) (repo : String) (st : ReleaseState) : ReleaseState × Event :=
  match env.fetch with
  | none => (st, .fetchFailed repo)
  | some rel =>
    if isNewRelease st repo rel.idStr then
      let notes := github_to_slack_markdown env.render rel.body
      if env.webhookOk then (insert' st repo rel.idStr, .notified repo notes)
      else (st, .webhookFailed repo)
    else (st, .noNew repo)

/-- The loop of lines 167-226 over the configured repositories, threading the
in-memory state and recording one event per repository. -/
def runRepos (envs : String → RepoEnv) : List String → ReleaseState → ReleaseState × List Event
  | [], st => (st, [])
  | r :: rs, st =>
    let p := checkRepo (envs r) r st
    let q := runRepos envs rs p.1
    (q.1, p.2 :: q.2)

/-- main (lines 164-229): load gives the initial state, the loop runs over
every configured repository, then save_last_release is called exactly once on
the final state (line 229), recorded as a trailing saved event. -/
def mainRun (envs : String → RepoEnv) (repos : List String) (st0 : ReleaseState) :
    ReleaseState × List Event :=
  let p := runRepos envs repos st0
  (p.1, p.2 ++ [.saved p.1])

/-- An event records an attempted webhook POST exactly when the loop body
reached line 213: either the POST succeeded or it failed. -/
def notificationAttempted : Event → Bool
  | .notified _ _ => true
  | .webhookFailed _ => true
  | _ => false

def isSaved : Event → Bool
  | .saved _ => true
  | _ => false

-- State store (src/main.py lines 36-63)

/-- load_last_releases (lines 36-63). gistId is the GIST_ID configuration
value; fetchGist models the GET of the gist and the extraction of its files
object (none models a raised exception, a bad status, or an unparsable
response, all caught at line 61); parseJson models json.loads on the file
content (none models a parse failure, caught by the same handler). -/
def load_last_releases (gistId : String)
    (fetchGist : Option (List (String × String)))
    (parseJson : String → Option ReleaseState) : ReleaseState :=
  if gistId = "" then []
  else
    match fetchGist with
    | none => []
    | some files =>
      match lookup' files GIST_FILENAME with
      | some content =>
        match parseJson content with
        | some st => st
        | none => []
      | none => []

/-! ## Dictionary and loop lemmas -/

theorem lookup_insert_ne (st : List (String × String)) (k r v : String) (h : r ≠ k) :
    lookup' (insert' st k v) r = lookup' st r := by
  induction st with
  | nil => simp [insert', lookup', Ne.symm h]
  | cons p rest ih =>
    obtain ⟨a, b⟩ := p
    by_cases hak : a = k
    · subst hak
      simp [insert', lookup', Ne.symm h]
    · simp [insert', lookup', hak]
      split <;> simp [ih]

theorem checkRepo_lookup_ne (env : RepoEnv) (r : String) (st : ReleaseState) (x : String)
    (h : x ≠ r) : lookup' (checkRepo env r st).1 x = lookup' st x := by
  unfold checkRepo
  cases env.fetch with
  | none => rfl
  | some rel =>
    simp only
    split
    · split
      · simp [lookup_insert_ne st r x rel.idStr h]
      · rfl
    · rfl

theorem runRepos_lookup_notMem (envs : String → RepoEnv) (repos : List String)
    (st : ReleaseState) (x : String) (h : x ∉ repos) :
    lookup' (runRepos envs repos st).1 x = lookup' st x := by
  induction repos generalizing st with
  | nil => rfl
  | cons r rs ih =>
    simp only [List.mem_cons, not_or] at h
    simp only [runRepos]
    rw [ih _ h.2, checkRepo_lookup_ne _ _ _ _ h.1]

theorem runRepos_append (envs : String → RepoEnv) (l1 l2 : List String) (st : ReleaseState) :
    runRepos envs (l1 ++ l2) st =
      ((runRepos envs l2 (runRepos envs l1 st).1).1,
       (runRepos envs l1 st).2 ++ (runRepos envs l2 (runRepos envs l1 st).1).2) := by
  induction l1 generalizing st with
  | nil => simp [runRepos]
  | cons r rs ih => simp [runRepos, ih]

theorem checkRepo_not_saved (env : RepoEnv) (r : String) (st : ReleaseState) :
    isSaved (checkRepo env r st).2 = false := by
  unfold checkRepo
  cases env.fetch with
  | none => rfl
  | some rel =>
    simp only
    split
    · split <;> rfl
    · rfl

theorem runRepos_events_length (envs : String → RepoEnv) (repos : List String)
    (st : ReleaseState) : (runRepos envs repos st).2.length = repos.length := by
  induction repos generalizing st with
  | nil => rfl
  | cons r rs ih => simp [runRepos, ih]

theorem runRepos_no_saved (envs : String → RepoEnv) (repos : List String) (st : ReleaseState) :
    ∀ e ∈ (runRepos envs repos st).2, isSaved e = false := by
  induction repos generalizing st with
  | nil => simp [runRepos]
  | cons r rs ih =>
    simp only [runRepos, List.mem_cons]
    rintro e (rfl | he)
    · exact checkRepo_not_saved _ _ _
    · exact ih _ _ he

theorem checkRepo_webhook_failed_state (env : RepoEnv) (r : String) (st : ReleaseState)
    (h : env.webhookOk = false) : (checkRepo env r st).1 = st := by
  unfold checkRepo
  cases env.fetch with
  | none => rfl
  | some rel =>
    simp only
    split
    · simp [h]
    · rfl

theorem checkRepo_fetch_failed (env : RepoEnv) (r : String) (st : ReleaseState)
    (h : env.fetch = none) : checkRepo env r st = (st, .fetchFailed r) := by
  unfold checkRepo
  rw [h]

/-! ## Claims about the poll loop and the state store -/

/-- C1: for a repository whose fetches succeed, the loop body attempts a
webhook notification iff the stored identifier for the repository is absent
or differs from the string form of the fetched release identifier; when the
stored identifier equals the fetched one no message is posted and the state
is unchanged; when no identifier is stored a notification is always
attempted. -/
theorem c1_notify_iff_new (env : RepoEnv) (repo : String) (st : ReleaseState)
    (rel : FetchedRelease) (hf : env.fetch = some rel) :
    (notificationAttempted (checkRepo env repo st).2 = true ↔
       lookup' st repo ≠ some rel.idStr)
  ∧ (lookup' st repo = some rel.idStr → checkRepo env repo st = (st, .noNew repo))
  ∧ (lookup' st repo = none →
       notificationAttempted (checkRepo env repo st).2 = true) := by
  unfold checkRepo
  rw [hf]
  simp only [isNewRelease]
  cases h : lookup' st repo with
  | none =>
    simp only
    cases hw : env.webhookOk <;> simp [notificationAttempted]
  | some v =>
    by_cases hv : v = rel.idStr
    · subst hv
      simp [notificationAttempted]
    · simp only [bne_iff_ne, ne_eq, hv, not_false_eq_true, if_true]
      cases hw : env.webhookOk <;> simp [notificationAttempted, hv]

/-- Witness for C1 at a concrete input: stored id "100", fetched id "101". -/
theorem c1_notify_iff_new_inst :
    notificationAttempted
      ((checkRepo ⟨some ⟨"101", none⟩, true, fun _ => none⟩ "nestjs/nest"
          [("nestjs/nest", "100")]).2) = true :=
  (c1_notify_iff_new ⟨some ⟨"101", none⟩, true, fun _ => none⟩ "nestjs/nest"
      [("nestjs/nest", "100")] ⟨"101", none⟩ rfl).1.mpr (by decide)

/-- C3: when the webhook POST for a repository fails, that iteration leaves
the state unchanged; a run whose list contains such a repository computes the
same final state as if the repository contributed nothing, with the remaining
repositories still processed from that state; and the failing repository's
stored entry is unchanged by the whole run when it occurs once in the list. -/
theorem c3_webhook_failure_leaves_state :
    (∀ (env : RepoEnv) (repo : String) (st : ReleaseState),
       env.webhookOk = false → (checkRepo env repo st).1 = st)
  ∧ (∀ (envs : String → RepoEnv) (pre : List String) (r : String) (post : List String)
       (st : ReleaseState), (envs r).webhookOk = false →
       (runRepos envs (pre ++ r :: post) st).1 =
         (runRepos envs post (runRepos envs pre st).1).1)
  ∧ (∀ (envs : String → RepoEnv) (pre : List String) (r : String) (post : List String)
       (st : ReleaseState), (envs r).webhookOk = false → r ∉ pre → r ∉ post →
       lookup' (runRepos envs (pre ++ r :: post) st).1 r = lookup' st r) := by
  refine ⟨checkRepo_webhook_failed_state, ?_, ?_⟩
  · intro envs pre r post st hw
    rw [runRepos_append]
    simp only [runRepos]
    rw [checkRepo_webhook_failed_state _ _ _ hw]
  · intro envs pre r post st hw hpre hpost
    rw [runRepos_append]
    simp only [runRepos]
    rw [checkRepo_webhook_failed_state _ _ _ hw]
    rw [runRepos_lookup_notMem _ _ _ _ hpost, runRepos_lookup_notMem _ _ _ _ hpre]

/-- Witness for C3 at a concrete input: the middle repository's webhook POST
fails, its stored entry survives the run. -/
theorem c3_webhook_failure_leaves_state_inst :
    lookup'
      (runRepos (fun _ => ⟨some ⟨"101", none⟩, false, fun _ => none⟩)
        (["a/b"] ++ "c/d" :: ["e/f"]) [("c/d", "7")]).1 "c/d" =
      lookup' [("c/d", "7")] "c/d" :=
  c3_webhook_failure_leaves_state.2.2 (fun _ => ⟨some ⟨"101", none⟩, false, fun _ => none⟩)
    ["a/b"] "c/d" ["e/f"] [("c/d", "7")] rfl (by decide) (by decide)

/-- C9: a run emits exactly one saved event, its event list has one entry per
configured repository followed by the save (so every repository is iterated
regardless of per-repository failures), the saved state is the final state,
and a repository whose fetch fails contributes nothing to the final state. -/
theorem c9_isolation_single_save (envs : String → RepoEnv) (repos : List String)
    (st : ReleaseState) :
    (mainRun envs repos st).2.countP (fun e => isSaved e) = 1
  ∧ (mainRun envs repos st).2.length = repos.length + 1
  ∧ (mainRun envs repos st).2.getLast? = some (.saved (mainRun envs repos st).1)
  ∧ (∀ (pre : List String) (r : String) (post : List String), (envs r).fetch = none →
       (runRepos envs (pre ++ r :: post) st).1 = (runRepos envs (pre ++ post) st).1) := by
  refine ⟨?_, ?_, ?_, ?_⟩
  · simp only [mainRun, List.countP_append]
    rw [List.countP_eq_zero.2, List.countP_singleton]
    · simp [isSaved]
    · intro e he
      simp [runRepos_no_saved envs repos st e he]
  · simp [mainRun, runRepos_events_length]
  · simp [mainRun]
  · intro pre r post hf
    rw [runRepos_append, runRepos_append]
    simp only [runRepos]
    rw [checkRepo_fetch_failed _ _ _ hf]

/-- Witness for C9: the fourth conjunct at a concrete input with a failing
fetch for the middle repository. -/
theorem c9_isolation_single_save_inst :
    (runRepos (fun _ => ⟨none, true, fun _ => none⟩) (["a/b"] ++ "c/d" :: ["e/f"]) []).1 =
      (runRepos (fun _ => ⟨none, true, fun _ => none⟩) (["a/b"] ++ ["e/f"]) []).1 :=
  (c9_isolation_single_save (fun _ => ⟨none, true, fun _ => none⟩)
      (["a/b"] ++ "c/d" :: ["e/f"]) []).2.2.2 ["a/b"] "c/d" ["e/f"] rfl

/-- C10: entries of the loaded state whose key is not a configured repository
are passed through unchanged to the saved state: the run mutates only keys in
the configured list. -/
theorem c10_unconfigured_entries_preserved (envs : String → RepoEnv) (st : ReleaseState)
    (r : String) (h : r ∉ REPOS) :
    lookup' (mainRun envs REPOS st).1 r = lookup' st r :=
  runRepos_lookup_notMem envs REPOS st r h

/-- Witness for C10 at a concrete input: an entry for an unconfigured
repository survives a full run. -/
theorem c10_unconfigured_entries_preserved_inst :
    lookup' (mainRun (fun _ => ⟨none, true, fun _ => none⟩) REPOS [("foo/bar", "42")]).1
        "foo/bar" =
      lookup' [("foo/bar", "42")] "foo/bar" :=
  c10_unconfigured_entries_preserved (fun _ => ⟨none, true, fun _ => none⟩)
    [("foo/bar", "42")] "foo/bar" (by decide)

/-- C8: load_last_releases returns a mapping in every case and returns the
empty mapping when no gist id is configured, when the gist fetch fails, when
the expected file is missing from the gist, or when the file content does not
parse. -/
theorem c8_load_total_empty_on_failure (gistId : String)
    (fetchGist : Option (List (String × String)))
    (parseJson : String → Option ReleaseState) :
    (gistId = "" → load_last_releases gistId fetchGist parseJson = [])
  ∧ (fetchGist = none → load_last_releases gistId fetchGist parseJson = [])
  ∧ (∀ files, fetchGist = some files → lookup' files GIST_FILENAME = none →
       load_last_releases gistId fetchGist parseJson = [])
  ∧ (∀ files content, fetchGist = some files →
       lookup' files GIST_FILENAME = some content → parseJson content = none →
       load_last_releases gistId fetchGist parseJson = []) := by
  refine ⟨?_, ?_, ?_, ?_⟩
  · intro h
    simp [load_last_releases, h]
  · intro h
    subst h
    simp [load_last_releases]
  · intro files hfe hlook
    subst hfe
    simp [load_last_releases, hlook]
  · intro files content hfe hlook hparse
    subst hfe
    simp [load_last_releases, hlook, hparse]

/-- Witness for C8 at concrete inputs: unconfigured gist id, failing fetch,
missing file, and unparsable content all give the empty mapping. -/
theorem c8_load_total_empty_on_failure_inst :
    load_last_releases "" none (fun _ => none) = []
  ∧ load_last_releases "g" none (fun _ => none) = []
  ∧ load_last_releases "g" (some [("other.txt", "x")]) (fun _ => none) = []
  ∧ load_last_releases "g" (some [("github_releases_data.json", "oops")])
      (fun _ => none) = [] :=
  ⟨(c8_load_total_empty_on_failure "" none (fun _ => none)).1 rfl,
   (c8_load_total_empty_on_failure "g" none (fun _ => none)).2.1 rfl,
   (c8_load_total_empty_on_failure "g" (some [("other.txt", "x")]) (fun _ => none)).2.2.1
     [("other.txt", "x")] rfl (by decide),
   (c8_load_total_empty_on_failure "g" (some [("github_releases_data.json", "oops")])
       (fun _ => none)).2.2.2 [("github_releases_data.json", "oops")] "oops" rfl
     (by decide) rfl⟩

/-! ## Converter lemmas: the transforms preserve nonemptiness -/

theorem linkSubAux_ne_nil (f : Nat) (s : List Char) (h : s ≠ []) : linkSubAux f s ≠ [] := by
  cases f with
  | zero => exact h
  | succ f =>
    cases s with
    | nil => exact absurd rfl h
    | cons c rest =>
      simp only [linkSubAux]
      split
      · cases htl : tryLink rest with
        | none => simp [htl]
        | some v => obtain ⟨l, u, r⟩ := v; simp [htl]
      · simp

theorem headerSubAux_ne_nil (f : Nat) (s : List Char) (h : s ≠ []) : headerSubAux f s ≠ [] := by
  cases f with
  | zero => exact h
  | succ f =>
    simp only [headerSubAux]
    cases hth : tryHeader s with
    | some v =>
      obtain ⟨g, r⟩ := v
      simp
    | none =>
      cases hsp : splitAtChar '\n' s with
      | some v => obtain ⟨line, r2⟩ := v; simp
      | none => exact h

theorem fenceSubAux_ne_nil (f : Nat) (s : List Char) (h : s ≠ []) : fenceSubAux f s ≠ [] := by
  cases f with
  | zero => exact h
  | succ f =>
    cases s with
    | nil => exact absurd rfl h
    | cons c rest =>
      simp only [fenceSubAux]
      split
      · split
        · split
          · split
            · split <;> simp
            · simp
          · simp
        · simp
      · simp

theorem replaceAllAux_ne_nil (pat repl : List Char) (f : Nat) (s : List Char)
    (hrepl : repl ≠ []) (h : s ≠ []) : replaceAllAux pat repl f s ≠ [] := by
  cases f with
  | zero => exact h
  | succ f =>
    cases s with
    | nil => exact absurd rfl h
    | cons c rest =>
      simp only [replaceAllAux]
      split
      · simp [hrepl]
      · simp

theorem bulletSubAux_ne_nil (f : Nat) (b : Bool) (s : List Char) (h : s ≠ []) :
    bulletSubAux f b s ≠ [] := by
  cases f with
  | zero => exact h
  | succ f =>
    cases s with
    | nil => exact absurd rfl h
    | cons c rest =>
      simp only [bulletSubAux]
      split
      · cases htb : tryBullet (c :: rest) with
        | none => simp [htb]
        | some v => obtain ⟨m, r⟩ := v; simp [htb]
      · simp

theorem fallbackConvert_ne_nil (t : List Char) (h : t ≠ []) : fallbackConvert t ≠ [] := by
  unfold fallbackConvert bulletSub entitySub replaceAll fenceSub headerSub linkSub
  apply bulletSubAux_ne_nil
  apply replaceAllAux_ne_nil _ _ _ _ (by decide)
  apply replaceAllAux_ne_nil _ _ _ _ (by decide)
  apply replaceAllAux_ne_nil _ _ _ _ (by decide)
  apply fenceSubAux_ne_nil
  apply headerSubAux_ne_nil
  exact linkSubAux_ne_nil _ _ h

theorem trunc4000_ne_nil (t : List Char) (h : t ≠ []) : trunc4000 t ≠ [] := by
  unfold trunc4000
  split
  · simp [truncMarker]
  · exact h

/-! ## Claims about the markup converter -/

/-- C5: an absent or empty input makes the converter return the fixed
placeholder string, and the second component records that no remote render
call is made. -/
theorem c5_empty_input_placeholder (render : List Char → Option (List Char)) :
    github_to_slack_markdownI render none = (placeholder, none)
  ∧ github_to_slack_markdownI render (some []) = (placeholder, none) :=
  ⟨rfl, rfl⟩

/-- C6: an input longer than 4000 units is truncated to 4000 units with the
truncation marker appended, and exactly that truncated text is what is
submitted to the remote render call. -/
theorem c6_trunc_before_remote (render : List Char → Option (List Char))
    (t : List Char) (h : 4000 < t.length) :
    (github_to_slack_markdownI render (some t)).2 =
      some (t.take 4000 ++ truncMarker) := by
  have ht : t ≠ [] := by
    intro e
    rw [e] at h
    simp at h
  simp only [github_to_slack_markdownI, if_neg ht]
  have htr : trunc4000 t = t.take 4000 ++ truncMarker := by
    simp [trunc4000, h]
  rw [htr]
  cases render (t.take 4000 ++ truncMarker) <;> rfl

/-- Witness for C6 at a concrete input of 4001 characters. -/
theorem c6_trunc_before_remote_inst :
    4000 < (List.replicate 4001 'a').length
  ∧ (github_to_slack_markdownI (fun _ => none) (some (List.replicate 4001 'a'))).2 =
      some ((List.replicate 4001 'a').take 4000 ++ truncMarker) :=
  ⟨by rw [List.length_replicate]; norm_num,
   c6_trunc_before_remote (fun _ => none) (List.replicate 4001 'a')
     (by rw [List.length_replicate]; norm_num)⟩

/-- C4: the converter is a total function of its oracle and input (it cannot
raise); when the remote render call fails the fallback transform is applied
to the (4000-truncated) source text and the result is a nonempty string. -/
theorem c4_fallback_never_raises (render : List Char → Option (List Char))
    (t : List Char) (ht : t ≠ []) (hr : render (trunc4000 t) = none) :
    github_to_slack_markdown render (some t) = fallbackConvert (trunc4000 t)
  ∧ github_to_slack_markdown render (some t) ≠ [] := by
  have he : github_to_slack_markdown render (some t) = fallbackConvert (trunc4000 t) := by
    simp only [github_to_slack_markdown, github_to_slack_markdownI, if_neg ht, hr]
  exact ⟨he, by rw [he]; exact fallbackConvert_ne_nil _ (trunc4000_ne_nil t ht)⟩

/-- Witness for C4 at a concrete input with a failing render oracle. -/
theorem c4_fallback_never_raises_inst :
    github_to_slack_markdown (fun _ => none) (some ['a']) = fallbackConvert (trunc4000 ['a'])
  ∧ github_to_slack_markdown (fun _ => none) (some ['a']) ≠ [] :=
  c4_fallback_never_raises (fun _ => none) ['a'] (by decide) rfl

/-! ## A plain text with no markup is a fixed point of the fallback -/

theorem splitAtChar_eq_none (c : Char) (s : List Char) (h : c ∉ s) :
    splitAtChar c s = none := by
  induction s with
  | nil => rfl
  | cons x xs ih =>
    simp only [List.mem_cons, not_or] at h
    simp only [splitAtChar, if_neg (Ne.symm h.1), ih h.2]

theorem linkSubAux_replicate_a (n f : Nat) :
    linkSubAux f (List.replicate n 'a') = List.replicate n 'a' := by
  induction n generalizing f with
  | zero => cases f <;> rfl
  | succ n ih =>
    cases f with
    | zero => rfl
    | succ f =>
      rw [List.replicate_succ]
      simp only [linkSubAux, if_neg (by decide : ¬ ('a' = '['))]
      rw [ih f]

theorem headerSubAux_replicate_a (n f : Nat) :
    headerSubAux f (List.replicate n 'a') = List.replicate n 'a' := by
  have hth : tryHeader (List.replicate n 'a') = none := by
    cases n with
    | zero => rfl
    | succ n =>
      rw [List.replicate_succ]
      simp [tryHeader]
  have hsp : splitAtChar '\n' (List.replicate n 'a') = none := by
    apply splitAtChar_eq_none
    simp [List.mem_replicate]
  cases f with
  | zero => rfl
  | succ f => simp only [headerSubAux, hth, hsp]

theorem fenceSubAux_replicate_a (n f : Nat) :
    fenceSubAux f (List.replicate n 'a') = List.replicate n 'a' := by
  induction n generalizing f with
  | zero => cases f <;> rfl
  | succ n ih =>
    cases f with
    | zero => rfl
    | succ f =>
      rw [List.replicate_succ]
      simp only [fenceSubAux, if_neg (by decide : ¬ ('a' = btick))]
      rw [ih f]

theorem replaceAllAux_replicate_a (pat repl : List Char)
    (hp : ∀ l, startsWith' pat ('a' :: l) = false) (f n : Nat) :
    replaceAllAux pat repl f (List.replicate n 'a') = List.replicate n 'a' := by
  induction n generalizing f with
  | zero => cases f <;> rfl
  | succ n ih =>
    cases f with
    | zero => rfl
    | succ f =>
      rw [List.replicate_succ]
      simp only [replaceAllAux, hp (List.replicate n 'a'), Bool.false_eq_true, if_false]
      rw [ih f]

theorem bulletSubAux_replicate_a (n : Nat) (f : Nat) (b : Bool) :
    bulletSubAux f b (List.replicate n 'a') = List.replicate n 'a' := by
  have htb : ∀ rest, tryBullet ('a' :: rest) = none := by
    intro rest
    simp [tryBullet, isWs]
  induction n generalizing f b with
  | zero => cases f <;> rfl
  | succ n ih =>
    cases f with
    | zero => rfl
    | succ f =>
      rw [List.replicate_succ]
      cases b with
      | true =>
        simp only [bulletSubAux, htb]
        rw [ih f]
        simp
      | false =>
        simp only [bulletSubAux, Bool.false_eq_true, if_false]
        rw [ih f]

theorem fallbackConvert_replicate_a (n : Nat) :
    fallbackConvert (List.replicate n 'a') = List.replicate n 'a' := by
  unfold fallbackConvert bulletSub entitySub replaceAll fenceSub headerSub linkSub
  rw [linkSubAux_replicate_a, headerSubAux_replicate_a, fenceSubAux_replicate_a]
  rw [replaceAllAux_replicate_a "&lt;".toList "<".toList (fun _ => rfl)]
  rw [replaceAllAux_replicate_a "&gt;".toList ">".toList (fun _ => rfl)]
  rw [replaceAllAux_replicate_a "&amp;".toList "&".toList (fun _ => rfl)]
  rw [bulletSubAux_replicate_a]

/-- C2 fails on the code: a 2901-character plain input on the fallback path
comes back unchanged, so the returned string exceeds 2900 units. The 2900
truncation of lines 136-137 is applied only on the remote-render path, and
there it appends a 15-unit marker after cutting at 2900. -/
theorem c2_output_bound_cex :
    ¬ (∀ (render : List Char → Option (List Char)) (t : Option (List Char)),
         (github_to_slack_markdown render t).length ≤ 2900) := by
  intro hclaim
  have h := hclaim (fun _ => none) (some (List.replicate 2901 'a'))
  have hne : List.replicate 2901 'a' ≠ ([] : List Char) := by
    apply List.ne_nil_of_length_pos
    rw [List.length_replicate]
    norm_num
  have htr : trunc4000 (List.replicate 2901 'a') = List.replicate 2901 'a' := by
    unfold trunc4000
    rw [List.length_replicate]
    norm_num
  rw [show github_to_slack_markdown (fun _ => none) (some (List.replicate 2901 'a')) =
        List.replicate 2901 'a' by
      simp only [github_to_slack_markdown, github_to_slack_markdownI, if_neg hne, htr]
      exact fallbackConvert_replicate_a 2901] at h
  rw [List.length_replicate] at h
  norm_num at h

theorem trunc2900_length_le (u : List Char) : (trunc2900 u).length ≤ 2915 := by
  unfold trunc2900
  split
  · rw [List.length_append, List.length_take]
    have : truncMarker.length = 15 := by decide
    omega
  · omega

/-- C2 amended: on the remote-render path the returned string has length at
most 2915 units (lines 136-137 cut the post-processed text at 2900 units and
then append the 15-unit truncation marker); the fallback path applies no
final-length truncation at all, returning the fallback transform of the
4000-truncated source text unchanged. -/
theorem c2_output_bound_amended :
    (∀ (render : List Char → Option (List Char)) (t s : List Char),
       render (trunc4000 t) = some s →
       (github_to_slack_markdown render (some t)).length ≤ 2915)
  ∧ (∀ (render : List Char → Option (List Char)) (t : List Char),
       t ≠ [] → render (trunc4000 t) = none →
       github_to_slack_markdown render (some t) = fallbackConvert (trunc4000 t)) := by
  constructor
  · intro render t s hr
    by_cases ht : t = []
    · subst ht
      have he : github_to_slack_markdown render (some []) = placeholder := rfl
      rw [he]
      decide
    · simp only [github_to_slack_markdown, github_to_slack_markdownI, if_neg ht, hr]
      exact trunc2900_length_le _
  · intro render t ht hr
    simp only [github_to_slack_markdown, github_to_slack_markdownI, if_neg ht, hr]

/-- Witness for the amended C2 at concrete inputs. -/
theorem c2_output_bound_amended_inst :
    (github_to_slack_markdown (fun _ => some ['a']) (some ['b'])).length ≤ 2915
  ∧ github_to_slack_markdown (fun _ => none) (some ['b']) =
      fallbackConvert (trunc4000 ['b']) :=
  ⟨c2_output_bound_amended.1 (fun _ => some ['a']) ['b'] ['a'] rfl,
   c2_output_bound_amended.2 (fun _ => none) ['b'] (by decide) rfl⟩

/-! ## The link rewrite equation -/

theorem splitAtChar_eq_some (c : Char) (s a b : List Char)
    (h : splitAtChar c s = some (a, b)) : s = a ++ c :: b := by
  induction s generalizing a b with
  | nil => simp [splitAtChar] at h
  | cons x xs ih =>
    simp only [splitAtChar] at h
    by_cases hx : x = c
    · rw [if_pos hx] at h
      simp only [Option.some.injEq, Prod.mk.injEq] at h
      obtain ⟨h1, h2⟩ := h
      subst h1
      subst h2
      simp [hx]
    · rw [if_neg hx] at h
      cases hsp : splitAtChar c xs with
      | none => rw [hsp] at h; simp at h
      | some v =>
        obtain ⟨pre, post⟩ := v
        rw [hsp] at h
        simp only [Option.some.injEq, Prod.mk.injEq] at h
        obtain ⟨h1, h2⟩ := h
        subst h2
        rw [← h1]
        simp [ih _ _ hsp]

theorem splitAtChar_append (c : Char) (a b : List Char) (h : c ∉ a) :
    splitAtChar c (a ++ c :: b) = some (a, b) := by
  induction a with
  | nil => simp [splitAtChar]
  | cons x xs ih =>
    simp only [List.mem_cons, not_or] at h
    simp only [List.cons_append, splitAtChar, if_neg (Ne.symm h.1)]
    show (match splitAtChar c (xs ++ c :: b) with
          | some (pre, post) => some (x :: pre, post)
          | none => none) = some (x :: xs, b)
    rw [ih h.2]

theorem tryLink_mk (x y s : List Char) (hx : x ≠ []) (hx2 : ']' ∉ x)
    (hy : y ≠ []) (hy2 : ')' ∉ y) :
    tryLink (x ++ ']' :: '(' :: (y ++ ')' :: s)) = some (x, y, s) := by
  unfold tryLink
  rw [show x ++ ']' :: '(' :: (y ++ ')' :: s) = x ++ ']' :: ('(' :: (y ++ ')' :: s))
      from rfl]
  rw [splitAtChar_append _ _ _ hx2]
  simp only [if_neg hx]
  rw [splitAtChar_append _ _ _ hy2]
  simp only [if_neg hy]

theorem tryLink_length (s l u r : List Char) (h : tryLink s = some (l, u, r)) :
    s.length = l.length + u.length + r.length + 3 := by
  unfold tryLink at h
  split at h
  · simp at h
  · rename_i label rest1 h1
    split at h
    · simp at h
    · split at h
      · rename_i rest2
        split at h
        · simp at h
        · rename_i w url rest3 h2
          split at h
          · simp at h
          · simp only [Option.some.injEq, Prod.mk.injEq] at h
            obtain ⟨rfl, rfl, rfl⟩ := h
            have e1 := splitAtChar_eq_some _ _ _ _ h1
            have e2 := splitAtChar_eq_some _ _ _ _ h2
            subst e1
            subst e2
            simp only [List.length_append, List.length_cons]
            omega
      · simp at h

theorem linkSubAux_fuel (f1 : Nat) (f2 : Nat) (s : List Char)
    (h1 : s.length ≤ f1) (h2 : s.length ≤ f2) : linkSubAux f1 s = linkSubAux f2 s := by
  induction f1 generalizing f2 s with
  | zero =>
    have he : s = [] := List.length_eq_zero.1 (Nat.le_zero.1 h1)
    subst he
    cases f2 <;> rfl
  | succ f ih =>
    cases s with
    | nil => cases f2 <;> rfl
    | cons c rest =>
      cases f2 with
      | zero => simp at h2
      | succ f2 =>
        simp only [List.length_cons, Nat.add_le_add_iff_right] at h1 h2
        by_cases hc : c = '['
        · cases ht : tryLink rest with
          | none =>
            simp [linkSubAux, hc, ht]
            exact ih f2 rest h1 h2
          | some v =>
            obtain ⟨l, u, r⟩ := v
            have hlen := tryLink_length rest l u r ht
            simp [linkSubAux, hc, ht]
            exact ih f2 r (by omega) (by omega)
        · simp [linkSubAux, hc]
          exact ih f2 rest h1 h2

theorem linkSubAux_eq_linkSub (f : Nat) (s : List Char) (h : s.length ≤ f) :
    linkSubAux f s = linkSub s :=
  linkSubAux_fuel f s.length s h (Nat.le_refl _)

theorem linkSub_cons_open (rest l u r : List Char) (h : tryLink rest = some (l, u, r)) :
    linkSub ('[' :: rest) = '<' :: (u ++ '|' :: (l ++ '>' :: linkSub r)) := by
  have hr : r.length ≤ rest.length := by
    have := tryLink_length rest l u r h
    omega
  unfold linkSub
  simp only [List.length_cons, linkSubAux, h]
  rw [linkSubAux_fuel rest.length r.length r hr (Nat.le_refl _)]
  simp

theorem linkSub_cons_ne (c : Char) (rest : List Char) (hc : c ≠ '[') :
    linkSub (c :: rest) = c :: linkSub rest := by
  unfold linkSub
  simp only [List.length_cons, linkSubAux, if_neg hc]

theorem linkSub_rewrite (p x y s : List Char) (hp : '[' ∉ p) (hx : x ≠ [])
    (hx2 : ']' ∉ x) (hy : y ≠ []) (hy2 : ')' ∉ y) :
    linkSub (p ++ '[' :: (x ++ ']' :: '(' :: (y ++ ')' :: s))) =
      p ++ '<' :: (y ++ '|' :: (x ++ '>' :: linkSub s)) := by
  induction p with
  | nil =>
    simp only [List.nil_append]
    exact linkSub_cons_open _ x y s (tryLink_mk x y s hx hx2 hy hy2)
  | cons a p ih =>
    simp only [List.mem_cons, not_or] at hp
    simp only [List.cons_append]
    rw [linkSub_cons_ne a _ (Ne.symm hp.1), ih hp.2]

/-- C7: the two link-rewrite call sites (line 128 on the remote-render path,
line 147 on the fallback path) are the same regex substitution, embedded once
as linkSub; a well-formed link occurrence whose left context contains no open
bracket is rewritten to Slack link syntax by that substitution; and both
paths of the converter factor through exactly this substitution as the first
post-processing step. -/
theorem c7_link_rewrite_both_paths :
    (∀ p x y s : List Char, '[' ∉ p → x ≠ [] → ']' ∉ x → y ≠ [] → ')' ∉ y →
       linkSub (p ++ '[' :: (x ++ ']' :: '(' :: (y ++ ')' :: s))) =
         p ++ '<' :: (y ++ '|' :: (x ++ '>' :: linkSub s)))
  ∧ (∀ (render : List Char → Option (List Char)) (t s : List Char),
       t ≠ [] → render (trunc4000 t) = some s →
       github_to_slack_markdown render (some t) = trunc2900 (headerSub (linkSub s)))
  ∧ (∀ t : List Char,
       fallbackConvert t = bulletSub (entitySub (fenceSub (headerSub (linkSub t))))) := by
  refine ⟨linkSub_rewrite, ?_, fun t => rfl⟩
  intro render t s ht hr
  simp only [github_to_slack_markdown, github_to_slack_markdownI, if_neg ht, hr]

/-- Witness for C7 at a concrete input on both paths. -/
theorem c7_link_rewrite_both_paths_inst :
    linkSub (['x', 'x'] ++ '[' :: (['a'] ++ ']' :: '(' :: (['b'] ++ ')' :: ['y']))) =
      ['x', 'x'] ++ '<' :: (['b'] ++ '|' :: (['a'] ++ '>' :: linkSub ['y']))
  ∧ github_to_slack_markdown (fun _ => some ['s']) (some ['t']) =
      trunc2900 (headerSub (linkSub ['s'])) :=
  ⟨c7_link_rewrite_both_paths.1 ['x', 'x'] ['a'] ['b'] ['y'] (by decide) (by decide)
     (by decide) (by decide) (by decide),
   c7_link_rewrite_both_paths.2.1 (fun _ => some ['s']) ['t'] ['s'] (by decide) rfl⟩
